import Mathlib

/-!
Verification development for the two-layer neural-network bandit agents of
`ensemble_nn/agent_nn.py`.

The Python code is embedded shallowly:

* numpy float arrays become `List` values over a linear ordered field
  (instantiated at `ℚ` for executable state transitions, at `ℝ` where a
  claim speaks about true derivatives);
* the process-wide random source (`numpy.random`) becomes explicit draw
  arguments: `rd.rand()` draws become rational arguments (the caller
  guarantees they lie in `[0, 1)`), `rd.randn()` draws become arbitrary
  rational arguments, and `rd.randint(n)` is modelled by reducing a raw
  natural draw modulo `n`, which always lands in `{0, ..., n-1}` exactly as
  numpy guarantees;
* each agent object becomes a `State` structure, and each mutating method
  becomes a function from the old state (plus draws) to the new state.
-/

section NNPrimitives

variable {α : Type} [LinearOrderedField α]

/-- Dot product of two lists, as in the numpy elementwise product plus sum. -/
def dot (xs ys : List α) : α := (List.zipWith (fun a b => a * b) xs ys).sum

/-- Scale a vector by a scalar. -/
def vscale (a : α) (v : List α) : List α := v.map (fun x => a * x)

/-- Elementwise vector addition. -/
def vadd (v w : List α) : List α := List.zipWith (fun a b => a + b) v w

/-- Elementwise vector subtraction. -/
def vsub (v w : List α) : List α := List.zipWith (fun a b => a - b) v w

/-- Batch sum of length-`n` vectors, the embedding of `np.sum(..., axis=0)`
on an array of shape `(B, n)`. -/
def vsum0 (n : ℕ) (vs : List (List α)) : List α := vs.foldr vadd (List.replicate n 0)

/-- Scale a matrix by a scalar. -/
def matScale (a : α) (m : List (List α)) : List (List α) := m.map (vscale a)

/-- Elementwise matrix addition. -/
def matAdd (m m2 : List (List α)) : List (List α) := List.zipWith vadd m m2

/-- Elementwise matrix subtraction. -/
def matSub (m m2 : List (List α)) : List (List α) := List.zipWith vsub m m2

/-- Outer product of two vectors, giving a matrix. -/
def outerProd (u v : List α) : List (List α) := u.map (fun a => vscale a v)

/-- Batch sum of `h × d` matrices, the embedding of summing a batch of outer
products. -/
def msum0 (h d : ℕ) (ms : List (List (List α))) : List (List α) :=
  ms.foldr matAdd (List.replicate h (List.replicate d 0))

/-- Elementwise (Hadamard) product of two matrices. -/
def hadamard (m m2 : List (List α)) : List (List α) :=
  List.zipWith (fun r r2 => List.zipWith (fun a b => a * b) r r2) m m2

/-- Cache of intermediate activations returned by the plain forward pass,
mirroring the tuple `(input_actions, affine_out, relu_out)`. -/
structure FwdCache (α : Type) where
  input_actions : List (List α)
  affine_out : List (List α)
  relu_out : List (List α)

/-- Embedding of `TwoLayerNNEpsilonGreedy._model_forward` (also used, one
member at a time, by `TwoLayerNNEnsembleSampling._model_forward`):
`affine_out[b][j] = sum_k input[b][k] * W1[j][k]`,
`relu_out = max(leaky_coeff * affine_out, affine_out)`,
`out[b] = sum_j relu_out[b][j] * W2[j]`. -/
def model_forward (c : α) (W1 : List (List α)) (W2 : List α)
    (input_actions : List (List α)) : List α × FwdCache α :=
  let affine_out := input_actions.map (fun x => W1.map (fun w => dot x w))
  let relu_out := affine_out.map (fun row => row.map (fun a => max (c * a) a))
  let out := relu_out.map (fun h => dot h W2)
  (out, ⟨input_actions, affine_out, relu_out⟩)

/-- Embedding of `TwoLayerNNEpsilonGreedy._model_backward` (also the ensemble
backward pass): `dout = -(2/noise_var)(y - out)`, `dW2 = sum_b dout_b * relu_out_b`,
gradient through the Leaky-ReLU mask (`1` where `affine_out >= 0`, `leaky_coeff`
otherwise) and the batch outer product with the inputs.  The dimensions
`hidden` and `inputDim` carry the array shapes numpy keeps implicitly. -/
def model_backward (noise_var c : α) (W2 : List α) (hidden inputDim : ℕ)
    (out : List α) (cache : FwdCache α) (y : List α) : List (List α) × List α :=
  let dout := List.zipWith (fun yb ob => -(2 / noise_var) * (yb - ob)) y out
  let dW2 := vsum0 hidden (List.zipWith (fun db h => vscale db h) dout cache.relu_out)
  let drelu_out := dout.map (fun db => vscale db W2)
  let relu_mask := cache.affine_out.map (fun row => row.map (fun a => if 0 ≤ a then (1 : α) else c))
  let daffine_out := hadamard relu_mask drelu_out
  let dW1 := msum0 hidden inputDim (List.zipWith outerProd daffine_out cache.input_actions)
  (dW1, dW2)

/-- Modelled from the spec: the squared-error loss
`(1/noise_var) * sum_b (y_b - out_b)^2`, the function whose gradient (which
carries the factor `2/noise_var`) the backward pass is claimed to compute.
The source has no loss function of its own, only the gradient code. -/
def sq_loss (noise_var : α) (y out : List α) : α :=
  (1 / noise_var) * ((List.zipWith (fun a b => (a - b) * (a - b)) y out).sum)

/-- Tail worker for `npArgmax`: `bi` is the best index so far, `bv` its value,
`i` the index of the head of the remaining list. -/
def npArgmaxGo : ℕ → α → ℕ → List α → ℕ
  | bi, _, _, [] => bi
  | bi, bv, i, x :: xs => if bv < x then npArgmaxGo i x (i + 1) xs else npArgmaxGo bi bv (i + 1) xs

/-- Embedding of `np.argmax`: index of the first occurrence of the maximum
(`0` on the empty list, where numpy would raise). -/
def npArgmax : List α → ℕ
  | [] => 0
  | x :: xs => npArgmaxGo 0 x 1 xs

end NNPrimitives

/-- Embedding of `rd.randint(t + 1, size=batch_size)`: one raw natural draw
per batch slot, reduced modulo `t + 1`, which is exactly the guarantee numpy
gives (a uniform value in `{0, ..., t}`). -/
def batch_ind (batch_size t : ℕ) (draw : ℕ → ℕ) : List ℕ :=
  (List.range batch_size).map (fun b => draw b % (t + 1))

namespace TwoLayerNNEpsilonGreedy

/-- The mutable attributes of a `TwoLayerNNEpsilonGreedy` object (also used by
the annealing subclass, which only overrides `pick_action`). -/
structure State where
  W1 : List (List ℚ)
  W2 : List ℚ
  actions : List (List ℚ)
  num_actions : ℕ
  T : ℕ
  prior_var : ℚ
  noise_var : ℚ
  epsilon_param : ℚ
  lr : ℚ
  num_gradient_steps : ℕ
  batch_size : ℕ
  lr_decay : ℚ
  leaky_coeff : ℚ
  action_hist : List (List ℚ)
  reward_hist : List ℚ

/-- The minibatch gradient of one inner step of `_update_model`: sample the
batch indices, gather the action and reward batches, run forward then
backward. -/
def minibatch_grad (s : State) (t : ℕ) (draw : ℕ → ℕ) : List (List ℚ) × List ℚ :=
  let bi := batch_ind s.batch_size t draw
  let action_batch := bi.map (fun i => s.action_hist.getD i [])
  let reward_batch := bi.map (fun i => s.reward_hist.getD i 0)
  let fwd := model_forward s.leaky_coeff s.W1 s.W2 action_batch
  model_backward s.noise_var s.leaky_coeff s.W2 s.W1.length (s.W1.headD []).length
    fwd.1 fwd.2 reward_batch

/-- One inner iteration of `TwoLayerNNEpsilonGreedy._update_model`:
`dW /= batch_size`, `dW += 2 / (prior_var * (t+1)) * W` (the implicit zero
prior), then `W -= lr * dW`. -/
def grad_step (s : State) (t : ℕ) (draw : ℕ → ℕ) : State :=
  let g := minibatch_grad s t draw
  let dW1 := (g.1).map (fun row => row.map (fun x => x / (s.batch_size : ℚ)))
  let dW2 := (g.2).map (fun x => x / (s.batch_size : ℚ))
  let dW1 := matAdd dW1 (matScale (2 / (s.prior_var * ((t : ℚ) + 1))) s.W1)
  let dW2 := vadd dW2 (vscale (2 / (s.prior_var * ((t : ℚ) + 1))) s.W2)
  { s with W1 := matSub s.W1 (matScale s.lr dW1), W2 := vsub s.W2 (vscale s.lr dW2) }

/-- Embedding of `TwoLayerNNEpsilonGreedy._update_model`: `num_gradient_steps`
inner iterations, each with its own batch of index draws. -/
def update_model (s : State) (t : ℕ) (draws : ℕ → ℕ → ℕ) : State :=
  (List.range s.num_gradient_steps).foldl (fun st i => grad_step st t (draws i)) s

/-- Embedding of `TwoLayerNNEpsilonGreedy.update_observation`: record the
chosen action and the reward at index `t`, run `_update_model`, then decay the
learning rate once. -/
def update_observation (s : State) (observation action : ℕ) (reward : ℚ)
    (draws : ℕ → ℕ → ℕ) : State :=
  let t := observation
  let s1 := { s with
    action_hist := s.action_hist.set t (s.actions.getD action []),
    reward_hist := s.reward_hist.set t reward }
  let s2 := update_model s1 t draws
  { s2 with lr := s2.lr * s2.lr_decay }

/-- Embedding of `TwoLayerNNEpsilonGreedy.pick_action`: `u` is the `rd.rand()`
draw (in `[0,1)`), `rdraw` the raw draw behind `rd.randint(num_actions)`.
The method mutates nothing, so it returns the unchanged state alongside the
chosen index. -/
def pick_action (s : State) (u : ℚ) (rdraw : ℕ) : ℕ × State :=
  if u < s.epsilon_param then (rdraw % s.num_actions, s)
  else (npArgmax (model_forward s.leaky_coeff s.W1 s.W2 s.actions).1, s)

end TwoLayerNNEpsilonGreedy

namespace TwoLayerNNEpsilonGreedyAnnealing

/-- Embedding of `TwoLayerNNEpsilonGreedyAnnealing.pick_action`: identical to
the fixed-epsilon policy but with `epsilon = epsilon_param / (epsilon_param + t)`
recomputed from the current step. -/
def pick_action (s : TwoLayerNNEpsilonGreedy.State) (observation : ℕ) (u : ℚ)
    (rdraw : ℕ) : ℕ × TwoLayerNNEpsilonGreedy.State :=
  let t := observation
  let epsilon := s.epsilon_param / (s.epsilon_param + (t : ℚ))
  if u < epsilon then (rdraw % s.num_actions, s)
  else (npArgmax (model_forward s.leaky_coeff s.W1 s.W2 s.actions).1, s)

end TwoLayerNNEpsilonGreedyAnnealing

namespace TwoLayerNNDropout

/-- The mutable attributes of a `TwoLayerNNDropout` object (`p` is
`drop_prob`). -/
structure State where
  W1 : List (List ℚ)
  W2 : List ℚ
  actions : List (List ℚ)
  num_actions : ℕ
  T : ℕ
  prior_var : ℚ
  noise_var : ℚ
  p : ℚ
  lr : ℚ
  num_gradient_steps : ℕ
  batch_size : ℕ
  lr_decay : ℚ
  leaky_coeff : ℚ
  action_hist : List (List ℚ)
  reward_hist : List ℚ

/-- Cache returned by the dropout forward pass, mirroring the tuple
`(input_actions, affine_out, relu_out, dropout_mask, dropout_out)`. -/
structure Cache (α : Type) where
  input_actions : List (List α)
  affine_out : List (List α)
  relu_out : List (List α)
  dropout_mask : List (List α)
  dropout_out : List (List α)

variable {α : Type} [LinearOrderedField α]

/-- Embedding of `rd.rand(*relu_out.shape) > p`: one uniform draw per entry of
`shape`, kept (`1`) when the draw exceeds `p`, dropped (`0`) otherwise. -/
def dropout_mask_of (p : α) (draw : ℕ → ℕ → α) (shape : List (List α)) :
    List (List α) :=
  shape.enum.map (fun br => br.2.enum.map (fun jr => if p < draw br.1 jr.1 then (1 : α) else 0))

/-- Embedding of `TwoLayerNNDropout._model_forward`: like the plain forward
pass, but a fresh Bernoulli mask multiplies `relu_out` before the readout.
Dropout stays on for every call, including action selection. -/
def model_forward (p c : α) (draw : ℕ → ℕ → α) (W1 : List (List α)) (W2 : List α)
    (input_actions : List (List α)) : List α × Cache α :=
  let affine_out := input_actions.map (fun x => W1.map (fun w => dot x w))
  let relu_out := affine_out.map (fun row => row.map (fun a => max (c * a) a))
  let mask := dropout_mask_of p draw relu_out
  let dropout_out := hadamard relu_out mask
  let out := dropout_out.map (fun h => dot h W2)
  (out, ⟨input_actions, affine_out, relu_out, mask, dropout_out⟩)

/-- Embedding of `TwoLayerNNDropout._model_backward`, kept faithful to the
source: `dW2 = sum_b dout_b * relu_out_b` (the source multiplies `relu_out`,
not `dropout_out`, here), while the `dW1` path multiplies by the dropout
mask before the Leaky-ReLU mask. -/
def model_backward (noise_var c : α) (W2 : List α) (hidden inputDim : ℕ)
    (out : List α) (cache : Cache α) (y : List α) : List (List α) × List α :=
  let dout := List.zipWith (fun yb ob => -(2 / noise_var) * (yb - ob)) y out
  let dW2 := vsum0 hidden (List.zipWith (fun db h => vscale db h) dout cache.relu_out)
  let ddropout_out := dout.map (fun db => vscale db W2)
  let drelu_out := hadamard ddropout_out cache.dropout_mask
  let relu_mask := cache.affine_out.map (fun row => row.map (fun a => if 0 ≤ a then (1 : α) else c))
  let daffine_out := hadamard relu_mask drelu_out
  let dW1 := msum0 hidden inputDim (List.zipWith outerProd daffine_out cache.input_actions)
  (dW1, dW2)

/-- Embedding of `TwoLayerNNDropout.pick_action`: arg-max of one stochastic
forward pass; the state is not mutated, only mask draws are consumed. -/
def pick_action (s : State) (draw : ℕ → ℕ → ℚ) : ℕ × State :=
  (npArgmax (model_forward s.p s.leaky_coeff draw s.W1 s.W2 s.actions).1, s)

end TwoLayerNNDropout

namespace TwoLayerNNEnsembleSampling

/-- The mutable attributes of a `TwoLayerNNEnsembleSampling` object: `M`
member networks, their fixed prior snapshots, live weights, and one perturbed
reward history per member. -/
structure State where
  M : ℕ
  W1_model_prior : List (List (List ℚ))
  W2_model_prior : List (List ℚ)
  W1 : List (List (List ℚ))
  W2 : List (List ℚ)
  actions : List (List ℚ)
  num_actions : ℕ
  T : ℕ
  prior_var : ℚ
  noise_var : ℚ
  lr : ℚ
  num_gradient_steps : ℕ
  batch_size : ℕ
  lr_decay : ℚ
  leaky_coeff : ℚ
  action_hist : List (List ℚ)
  model_reward_hist : List (List ℚ)

/-- The minibatch gradient for one ensemble member, written as a pure function
of exactly the data the source loop reads: the shared hyperparameters and
action history, plus member data `reward_hist`, `W1m`, `W2m`. -/
def member_minibatch_grad (leaky noise_var : ℚ) (batch_size : ℕ)
    (action_hist : List (List ℚ)) (reward_hist : List ℚ)
    (W1m : List (List ℚ)) (W2m : List ℚ) (t : ℕ) (draw : ℕ → ℕ) :
    List (List ℚ) × List ℚ :=
  let bi := batch_ind batch_size t draw
  let action_batch := bi.map (fun i => action_hist.getD i [])
  let reward_batch := bi.map (fun i => reward_hist.getD i 0)
  let fwd := model_forward leaky W1m W2m action_batch
  model_backward noise_var leaky W2m W1m.length (W1m.headD []).length
    fwd.1 fwd.2 reward_batch

/-- One inner iteration of `TwoLayerNNEnsembleSampling._update_model` for one
member: normalize by the batch size, add
`2 / (prior_var * (t+1)) * (W - W_prior)` with the fixed prior snapshot, then
take the descent step. -/
def member_grad_step (leaky noise_var prior_var lr : ℚ) (batch_size : ℕ)
    (action_hist : List (List ℚ)) (reward_hist : List ℚ)
    (W1p : List (List ℚ)) (W2p : List ℚ) (t : ℕ)
    (W : List (List ℚ) × List ℚ) (draw : ℕ → ℕ) : List (List ℚ) × List ℚ :=
  let g := member_minibatch_grad leaky noise_var batch_size action_hist reward_hist W.1 W.2 t draw
  let dW1 := (g.1).map (fun row => row.map (fun x => x / (batch_size : ℚ)))
  let dW2 := (g.2).map (fun x => x / (batch_size : ℚ))
  let dW1 := matAdd dW1 (matScale (2 / (prior_var * ((t : ℚ) + 1))) (matSub W.1 W1p))
  let dW2 := vadd dW2 (vscale (2 / (prior_var * ((t : ℚ) + 1))) (vsub W.2 W2p))
  (matSub W.1 (matScale lr dW1), vsub W.2 (vscale lr dW2))

/-- The whole inner loop of `_update_model` for one member, as a pure function
of that member's data. -/
def member_sgd (leaky noise_var prior_var lr : ℚ) (batch_size num_gradient_steps : ℕ)
    (action_hist : List (List ℚ)) (reward_hist : List ℚ)
    (W1p : List (List ℚ)) (W2p : List ℚ) (t : ℕ)
    (W1m : List (List ℚ)) (W2m : List ℚ) (draws : ℕ → ℕ → ℕ) :
    List (List ℚ) × List ℚ :=
  (List.range num_gradient_steps).foldl
    (fun W i =>
      member_grad_step leaky noise_var prior_var lr batch_size action_hist reward_hist
        W1p W2p t W (draws i))
    (W1m, W2m)

/-- Embedding of `TwoLayerNNEnsembleSampling._update_model`: run the SGD loop
on member `m` reading only member `m` data, then write back `W1[m]`, `W2[m]`. -/
def update_model (s : State) (m t : ℕ) (draws : ℕ → ℕ → ℕ) : State :=
  let w := member_sgd s.leaky_coeff s.noise_var s.prior_var s.lr s.batch_size
    s.num_gradient_steps s.action_hist (s.model_reward_hist.getD m [])
    (s.W1_model_prior.getD m []) (s.W2_model_prior.getD m []) t
    (s.W1.getD m []) (s.W2.getD m []) draws
  { s with W1 := s.W1.set m w.1, W2 := s.W2.set m w.2 }

/-- One iteration of the member loop inside `update_observation`: store
`reward + sqrt(noise_var) * z` into `model_reward_hist[m][t]` (`z` is the
`rd.randn()` draw, `sqrt_noise` the value of `np.sqrt(noise_var)`), then run
`_update_model(m, t)`. -/
def member_step (s : State) (t m : ℕ) (reward sqrt_noise z : ℚ)
    (draws : ℕ → ℕ → ℕ) : State :=
  let s1 := { s with model_reward_hist :=
    s.model_reward_hist.set m ((s.model_reward_hist.getD m []).set t (reward + sqrt_noise * z)) }
  update_model s1 m t draws

/-- Embedding of `TwoLayerNNEnsembleSampling.update_observation`: record the
action, then for every member perturb the reward and train that member, and
finally decay the learning rate once. -/
def update_observation (s : State) (observation action : ℕ) (reward sqrt_noise : ℚ)
    (zs : ℕ → ℚ) (draws : ℕ → ℕ → ℕ → ℕ) : State :=
  let t := observation
  let s1 := { s with action_hist := s.action_hist.set t (s.actions.getD action []) }
  let s2 := (List.range s1.M).foldl
    (fun st m => member_step st t m reward sqrt_noise (zs m) (draws m)) s1
  { s2 with lr := s2.lr * s2.lr_decay }

/-- Embedding of `TwoLayerNNEnsembleSampling.pick_action`: choose a member
uniformly (raw draw reduced modulo `M`), act greedily under it; the state is
not mutated. -/
def pick_action (s : State) (mdraw : ℕ) : ℕ × State :=
  let m := mdraw % s.M
  (npArgmax (model_forward s.leaky_coeff (s.W1.getD m []) (s.W2.getD m []) s.actions).1, s)

end TwoLayerNNEnsembleSampling

/-- A tiny concrete epsilon-greedy agent state used to instantiate theorems
with hypotheses: one hidden unit, one input dimension, one action, horizon 1,
`epsilon_param = 0`, `batch_size = 2`. -/
def egEx : TwoLayerNNEpsilonGreedy.State :=
  { W1 := [[1]], W2 := [1], actions := [[1]], num_actions := 1, T := 1,
    prior_var := 1, noise_var := 1, epsilon_param := 0, lr := 1,
    num_gradient_steps := 1, batch_size := 2, lr_decay := 1, leaky_coeff := 1,
    action_hist := [[0]], reward_hist := [0] }

/-- A tiny concrete dropout agent state. -/
def dropEx : TwoLayerNNDropout.State :=
  { W1 := [[1]], W2 := [1], actions := [[1]], num_actions := 1, T := 1,
    prior_var := 1, noise_var := 1, p := 1/2, lr := 1,
    num_gradient_steps := 1, batch_size := 2, lr_decay := 1, leaky_coeff := 1/100,
    action_hist := [[0]], reward_hist := [0] }

/-- A tiny concrete ensemble agent state with a single member. -/
def ensEx : TwoLayerNNEnsembleSampling.State :=
  { M := 1, W1_model_prior := [[[1]]], W2_model_prior := [[1]],
    W1 := [[[1]]], W2 := [[1]], actions := [[1]], num_actions := 1, T := 1,
    prior_var := 1, noise_var := 1, lr := 1,
    num_gradient_steps := 0, batch_size := 1, lr_decay := 1, leaky_coeff := 1/100,
    action_hist := [[0]], model_reward_hist := [[0]] }

section Helpers

/-- Writing at one position leaves every other position unchanged. -/
theorem getD_set_ne {β : Type} (l : List β) (i j : ℕ) (v d : β) (hij : i ≠ j) :
    (l.set i v).getD j d = l.getD j d := by
  induction l generalizing i j with
  | nil => simp
  | cons a l ih =>
    cases i with
    | zero =>
      cases j with
      | zero => exact absurd rfl hij
      | succ j => simp [List.set]
    | succ i =>
      cases j with
      | zero => simp [List.set]
      | succ j => simpa [List.set] using ih i j (fun h => hij (by rw [h]))

/-- Writing at an in-bounds position is visible at that position. -/
theorem getD_set_self {β : Type} (l : List β) (i : ℕ) (v d : β) (hi : i < l.length) :
    (l.set i v).getD i d = v := by
  induction l generalizing i with
  | nil => simp at hi
  | cons a l ih =>
    cases i with
    | zero => simp [List.set]
    | succ i => simpa [List.set] using ih i (by simpa using hi)

/-- A quantity preserved by every step of a fold is preserved by the fold. -/
theorem foldl_pres {σ β : Type} (g : σ → ℕ → σ) (P : σ → β) :
    ∀ (L : List ℕ), (∀ st i, i ∈ L → P (g st i) = P st) → ∀ st, P (L.foldl g st) = P st := by
  intro L
  induction L with
  | nil => intro _ st; rfl
  | cons a L ih =>
    intro h st
    rw [List.foldl_cons, ih (fun st i hi => h st i (List.mem_cons_of_mem a hi)),
      h st a (List.mem_cons_self a L)]

/-- The argmax worker returns an index below `i + xs.length` whenever its
running best index is below `i`. -/
theorem npArgmaxGo_lt {α : Type} [LinearOrderedField α] :
    ∀ (xs : List α) (bi i : ℕ) (bv : α), bi < i → npArgmaxGo bi bv i xs < i + xs.length := by
  intro xs
  induction xs with
  | nil => intro bi i bv h; simpa [npArgmaxGo] using h
  | cons x xs ih =>
    intro bi i bv h
    simp only [npArgmaxGo, List.length_cons]
    by_cases hc : bv < x
    · rw [if_pos hc]
      have h1 := ih i (i + 1) x (Nat.lt_succ_self i)
      omega
    · rw [if_neg hc]
      have h1 := ih bi (i + 1) bv (Nat.lt_succ_of_lt h)
      omega

/-- On a non-empty list, `np.argmax` returns an in-bounds index. -/
theorem npArgmax_lt {α : Type} [LinearOrderedField α] (xs : List α) (h : xs ≠ []) :
    npArgmax xs < xs.length := by
  cases xs with
  | nil => exact absurd rfl h
  | cons x xs =>
    have h1 := npArgmaxGo_lt xs 0 1 x Nat.one_pos
    simp only [npArgmax, List.length_cons]
    omega

/-- The plain forward pass emits one prediction per input row. -/
theorem model_forward_out_length {α : Type} [LinearOrderedField α] (c : α)
    (W1 : List (List α)) (W2 : List α) (X : List (List α)) :
    (model_forward c W1 W2 X).1.length = X.length := by
  simp [model_forward]

/-- The dropout forward pass emits one prediction per input row. -/
theorem dropout_forward_out_length {α : Type} [LinearOrderedField α] (p c : α)
    (draw : ℕ → ℕ → α) (W1 : List (List α)) (W2 : List α) (X : List (List α)) :
    (TwoLayerNNDropout.model_forward p c draw W1 W2 X).1.length = X.length := by
  simp [TwoLayerNNDropout.model_forward, hadamard, TwoLayerNNDropout.dropout_mask_of]

/-- One inner gradient step touches only the weights: the histories and the
learning-rate fields are untouched. -/
theorem eg_grad_step_frame (s : TwoLayerNNEpsilonGreedy.State) (t : ℕ) (d : ℕ → ℕ) :
    (TwoLayerNNEpsilonGreedy.grad_step s t d).lr = s.lr ∧
    (TwoLayerNNEpsilonGreedy.grad_step s t d).lr_decay = s.lr_decay ∧
    (TwoLayerNNEpsilonGreedy.grad_step s t d).action_hist = s.action_hist ∧
    (TwoLayerNNEpsilonGreedy.grad_step s t d).reward_hist = s.reward_hist :=
  ⟨rfl, rfl, rfl, rfl⟩

/-- The whole inner loop touches only the weights. -/
theorem eg_update_model_frame (s : TwoLayerNNEpsilonGreedy.State) (t : ℕ) (ds : ℕ → ℕ → ℕ) :
    (TwoLayerNNEpsilonGreedy.update_model s t ds).lr = s.lr ∧
    (TwoLayerNNEpsilonGreedy.update_model s t ds).lr_decay = s.lr_decay ∧
    (TwoLayerNNEpsilonGreedy.update_model s t ds).action_hist = s.action_hist ∧
    (TwoLayerNNEpsilonGreedy.update_model s t ds).reward_hist = s.reward_hist := by
  unfold TwoLayerNNEpsilonGreedy.update_model
  exact ⟨foldl_pres (fun st i => TwoLayerNNEpsilonGreedy.grad_step st t (ds i))
      (fun st => st.lr) _ (fun st i _ => rfl) s,
    foldl_pres (fun st i => TwoLayerNNEpsilonGreedy.grad_step st t (ds i))
      (fun st => st.lr_decay) _ (fun st i _ => rfl) s,
    foldl_pres (fun st i => TwoLayerNNEpsilonGreedy.grad_step st t (ds i))
      (fun st => st.action_hist) _ (fun st i _ => rfl) s,
    foldl_pres (fun st i => TwoLayerNNEpsilonGreedy.grad_step st t (ds i))
      (fun st => st.reward_hist) _ (fun st i _ => rfl) s⟩

end Helpers

section EnsembleHelpers

open TwoLayerNNEnsembleSampling

/-- One member step leaves the shared attributes (hyperparameters, action
history, priors, learning rate) and all array lengths unchanged. -/
theorem ens_member_step_frame (s : TwoLayerNNEnsembleSampling.State) (t m : ℕ)
    (r sn z : ℚ) (d : ℕ → ℕ → ℕ) :
    (member_step s t m r sn z d).action_hist = s.action_hist ∧
    (member_step s t m r sn z d).lr = s.lr ∧
    (member_step s t m r sn z d).lr_decay = s.lr_decay ∧
    (member_step s t m r sn z d).leaky_coeff = s.leaky_coeff ∧
    (member_step s t m r sn z d).noise_var = s.noise_var ∧
    (member_step s t m r sn z d).prior_var = s.prior_var ∧
    (member_step s t m r sn z d).batch_size = s.batch_size ∧
    (member_step s t m r sn z d).num_gradient_steps = s.num_gradient_steps ∧
    (member_step s t m r sn z d).M = s.M ∧
    (member_step s t m r sn z d).W1_model_prior = s.W1_model_prior ∧
    (member_step s t m r sn z d).W2_model_prior = s.W2_model_prior :=
  ⟨rfl, rfl, rfl, rfl, rfl, rfl, rfl, rfl, rfl, rfl, rfl⟩

/-- One member step preserves the lengths of the per-member arrays. -/
theorem ens_member_step_len (s : TwoLayerNNEnsembleSampling.State) (t m : ℕ)
    (r sn z : ℚ) (d : ℕ → ℕ → ℕ) :
    (member_step s t m r sn z d).W1.length = s.W1.length ∧
    (member_step s t m r sn z d).W2.length = s.W2.length ∧
    (member_step s t m r sn z d).model_reward_hist.length = s.model_reward_hist.length := by
  refine ⟨?_, ?_, ?_⟩ <;> simp [TwoLayerNNEnsembleSampling.member_step,
    TwoLayerNNEnsembleSampling.update_model]

/-- A step of member `m2` does not touch the data of a different member `m`. -/
theorem ens_member_step_getD_ne (s : TwoLayerNNEnsembleSampling.State) (t m m2 : ℕ)
    (r sn z : ℚ) (d : ℕ → ℕ → ℕ) (hne : m2 ≠ m) :
    (member_step s t m2 r sn z d).W1.getD m [] = s.W1.getD m [] ∧
    (member_step s t m2 r sn z d).W2.getD m [] = s.W2.getD m [] ∧
    (member_step s t m2 r sn z d).model_reward_hist.getD m [] = s.model_reward_hist.getD m [] :=
  ⟨getD_set_ne _ _ _ _ _ hne, getD_set_ne _ _ _ _ _ hne, getD_set_ne _ _ _ _ _ hne⟩

/-- A step of member `m` itself: the perturbed reward is written at `[m][t]`
and the new member weights are exactly `member_sgd` of member `m` data. -/
theorem ens_member_step_self (s : TwoLayerNNEnsembleSampling.State) (t m : ℕ)
    (r sn z : ℚ) (d : ℕ → ℕ → ℕ)
    (h1 : m < s.W1.length) (h2 : m < s.W2.length) (h3 : m < s.model_reward_hist.length) :
    (member_step s t m r sn z d).W1.getD m [] =
      (member_sgd s.leaky_coeff s.noise_var s.prior_var s.lr s.batch_size
        s.num_gradient_steps s.action_hist
        ((s.model_reward_hist.getD m []).set t (r + sn * z))
        (s.W1_model_prior.getD m []) (s.W2_model_prior.getD m []) t
        (s.W1.getD m []) (s.W2.getD m []) d).1 ∧
    (member_step s t m r sn z d).W2.getD m [] =
      (member_sgd s.leaky_coeff s.noise_var s.prior_var s.lr s.batch_size
        s.num_gradient_steps s.action_hist
        ((s.model_reward_hist.getD m []).set t (r + sn * z))
        (s.W1_model_prior.getD m []) (s.W2_model_prior.getD m []) t
        (s.W1.getD m []) (s.W2.getD m []) d).2 ∧
    (member_step s t m r sn z d).model_reward_hist.getD m [] =
      (s.model_reward_hist.getD m []).set t (r + sn * z) := by
  have e1 : (s.model_reward_hist.set m
        ((s.model_reward_hist.getD m []).set t (r + sn * z))).getD m []
      = (s.model_reward_hist.getD m []).set t (r + sn * z) :=
    getD_set_self _ _ _ _ h3
  refine ⟨?_, ?_, ?_⟩
  · rw [← e1]; exact getD_set_self _ _ _ _ h1
  · rw [← e1]; exact getD_set_self _ _ _ _ h2
  · exact getD_set_self _ _ _ _ h3

end EnsembleHelpers

/-- Folding the member loop of `update_observation` over members `0, ..., k-1`
yields, at any member `m < k`, exactly the perturbed reward row and the
`member_sgd` result computed from member `m` data of the pre-loop state:
members do not interfere with one another. -/
theorem ens_fold_member (t : ℕ) (r sn : ℚ) (zs : ℕ → ℚ) (ds : ℕ → ℕ → ℕ → ℕ) (m : ℕ) :
    ∀ (k : ℕ) (s : TwoLayerNNEnsembleSampling.State), m < k →
      m < s.W1.length → m < s.W2.length → m < s.model_reward_hist.length →
      (((List.range k).foldl
          (fun st m2 => TwoLayerNNEnsembleSampling.member_step st t m2 r sn (zs m2) (ds m2))
          s).W1.getD m []
        = (TwoLayerNNEnsembleSampling.member_sgd s.leaky_coeff s.noise_var s.prior_var s.lr
            s.batch_size s.num_gradient_steps s.action_hist
            ((s.model_reward_hist.getD m []).set t (r + sn * zs m))
            (s.W1_model_prior.getD m []) (s.W2_model_prior.getD m []) t
            (s.W1.getD m []) (s.W2.getD m []) (ds m)).1 ∧
       ((List.range k).foldl
          (fun st m2 => TwoLayerNNEnsembleSampling.member_step st t m2 r sn (zs m2) (ds m2))
          s).W2.getD m []
        = (TwoLayerNNEnsembleSampling.member_sgd s.leaky_coeff s.noise_var s.prior_var s.lr
            s.batch_size s.num_gradient_steps s.action_hist
            ((s.model_reward_hist.getD m []).set t (r + sn * zs m))
            (s.W1_model_prior.getD m []) (s.W2_model_prior.getD m []) t
            (s.W1.getD m []) (s.W2.getD m []) (ds m)).2 ∧
       ((List.range k).foldl
          (fun st m2 => TwoLayerNNEnsembleSampling.member_step st t m2 r sn (zs m2) (ds m2))
          s).model_reward_hist.getD m []
        = (s.model_reward_hist.getD m []).set t (r + sn * zs m)) := by
  intro k
  induction k with
  | zero => intro s hm; exact absurd hm (Nat.not_lt_zero m)
  | succ k ih =>
    intro s hm h1 h2 h3
    rw [List.range_succ, List.foldl_append]
    simp only [List.foldl_cons, List.foldl_nil]
    by_cases hmk : m = k
    · subst hmk
      have pW1 := foldl_pres
        (fun st m2 => TwoLayerNNEnsembleSampling.member_step st t m2 r sn (zs m2) (ds m2))
        (fun st => st.W1.getD m []) (List.range m)
        (fun st i hi => (ens_member_step_getD_ne st t m i r sn (zs i) (ds i)
          (Nat.ne_of_lt (List.mem_range.mp hi))).1) s
      have pW2 := foldl_pres
        (fun st m2 => TwoLayerNNEnsembleSampling.member_step st t m2 r sn (zs m2) (ds m2))
        (fun st => st.W2.getD m []) (List.range m)
        (fun st i hi => (ens_member_step_getD_ne st t m i r sn (zs i) (ds i)
          (Nat.ne_of_lt (List.mem_range.mp hi))).2.1) s
      have pH := foldl_pres
        (fun st m2 => TwoLayerNNEnsembleSampling.member_step st t m2 r sn (zs m2) (ds m2))
        (fun st => st.model_reward_hist.getD m []) (List.range m)
        (fun st i hi => (ens_member_step_getD_ne st t m i r sn (zs i) (ds i)
          (Nat.ne_of_lt (List.mem_range.mp hi))).2.2) s
      have pa := foldl_pres
        (fun st m2 => TwoLayerNNEnsembleSampling.member_step st t m2 r sn (zs m2) (ds m2))
        (fun st => st.action_hist) (List.range m) (fun st i _ => rfl) s
      have plr := foldl_pres
        (fun st m2 => TwoLayerNNEnsembleSampling.member_step st t m2 r sn (zs m2) (ds m2))
        (fun st => st.lr) (List.range m) (fun st i _ => rfl) s
      have pleaky := foldl_pres
        (fun st m2 => TwoLayerNNEnsembleSampling.member_step st t m2 r sn (zs m2) (ds m2))
        (fun st => st.leaky_coeff) (List.range m) (fun st i _ => rfl) s
      have pnoise := foldl_pres
        (fun st m2 => TwoLayerNNEnsembleSampling.member_step st t m2 r sn (zs m2) (ds m2))
        (fun st => st.noise_var) (List.range m) (fun st i _ => rfl) s
      have ppv := foldl_pres
        (fun st m2 => TwoLayerNNEnsembleSampling.member_step st t m2 r sn (zs m2) (ds m2))
        (fun st => st.prior_var) (List.range m) (fun st i _ => rfl) s
      have pbs := foldl_pres
        (fun st m2 => TwoLayerNNEnsembleSampling.member_step st t m2 r sn (zs m2) (ds m2))
        (fun st => st.batch_size) (List.range m) (fun st i _ => rfl) s
      have pnst := foldl_pres
        (fun st m2 => TwoLayerNNEnsembleSampling.member_step st t m2 r sn (zs m2) (ds m2))
        (fun st => st.num_gradient_steps) (List.range m) (fun st i _ => rfl) s
      have pp1 := foldl_pres
        (fun st m2 => TwoLayerNNEnsembleSampling.member_step st t m2 r sn (zs m2) (ds m2))
        (fun st => st.W1_model_prior) (List.range m) (fun st i _ => rfl) s
      have pp2 := foldl_pres
        (fun st m2 => TwoLayerNNEnsembleSampling.member_step st t m2 r sn (zs m2) (ds m2))
        (fun st => st.W2_model_prior) (List.range m) (fun st i _ => rfl) s
      have pl1 := foldl_pres
        (fun st m2 => TwoLayerNNEnsembleSampling.member_step st t m2 r sn (zs m2) (ds m2))
        (fun st => st.W1.length) (List.range m)
        (fun st i _ => (ens_member_step_len st t i r sn (zs i) (ds i)).1) s
      have pl2 := foldl_pres
        (fun st m2 => TwoLayerNNEnsembleSampling.member_step st t m2 r sn (zs m2) (ds m2))
        (fun st => st.W2.length) (List.range m)
        (fun st i _ => (ens_member_step_len st t i r sn (zs i) (ds i)).2.1) s
      have pl3 := foldl_pres
        (fun st m2 => TwoLayerNNEnsembleSampling.member_step st t m2 r sn (zs m2) (ds m2))
        (fun st => st.model_reward_hist.length) (List.range m)
        (fun st i _ => (ens_member_step_len st t i r sn (zs i) (ds i)).2.2) s
      have key := ens_member_step_self
        ((List.range m).foldl
          (fun st m2 => TwoLayerNNEnsembleSampling.member_step st t m2 r sn (zs m2) (ds m2)) s)
        t m r sn (zs m) (ds m)
        (by rw [pl1]; exact h1) (by rw [pl2]; exact h2) (by rw [pl3]; exact h3)
      rw [pW1, pW2, pH, pa, plr, pleaky, pnoise, ppv, pbs, pnst, pp1, pp2] at key
      exact key
    · have hmk2 : m < k := by omega
      have ihres := ih s hmk2 h1 h2 h3
      have hstep := ens_member_step_getD_ne
        ((List.range k).foldl
          (fun st m2 => TwoLayerNNEnsembleSampling.member_step st t m2 r sn (zs m2) (ds m2)) s)
        t m k r sn (zs k) (ds k) (Ne.symm hmk)
      exact ⟨hstep.1.trans ihres.1, hstep.2.1.trans ihres.2.1, hstep.2.2.trans ihres.2.2⟩

/-- C2: in every inner gradient step, after normalizing the batch-summed
gradient by `batch_size`, the quantity `2 / (prior_var * (t+1)) * (W - W_prior)`
is added to the gradient of each weight array before the descent step — with
`W_prior = 0` for the single-model agents (the regularization term is
`2 / (prior_var * (t+1)) * W`) and with the member's fixed prior snapshot for
each ensemble member. -/
theorem C2_regularization_toward_prior :
    (∀ (s : TwoLayerNNEpsilonGreedy.State) (t : ℕ) (draw : ℕ → ℕ),
      TwoLayerNNEpsilonGreedy.grad_step s t draw = { s with
        W1 := matSub s.W1 (matScale s.lr (matAdd
          ((TwoLayerNNEpsilonGreedy.minibatch_grad s t draw).1.map
            (fun row => row.map (fun x => x / (s.batch_size : ℚ))))
          (matScale (2 / (s.prior_var * ((t : ℚ) + 1))) s.W1))),
        W2 := vsub s.W2 (vscale s.lr (vadd
          ((TwoLayerNNEpsilonGreedy.minibatch_grad s t draw).2.map
            (fun x => x / (s.batch_size : ℚ)))
          (vscale (2 / (s.prior_var * ((t : ℚ) + 1))) s.W2))) }) ∧
    (∀ (leaky noise_var prior_var lr : ℚ) (batch_size : ℕ)
      (action_hist : List (List ℚ)) (reward_hist : List ℚ)
      (W1p : List (List ℚ)) (W2p : List ℚ) (t : ℕ)
      (W : List (List ℚ) × List ℚ) (draw : ℕ → ℕ),
      TwoLayerNNEnsembleSampling.member_grad_step leaky noise_var prior_var lr batch_size
          action_hist reward_hist W1p W2p t W draw
        = (matSub W.1 (matScale lr (matAdd
            ((TwoLayerNNEnsembleSampling.member_minibatch_grad leaky noise_var batch_size
                action_hist reward_hist W.1 W.2 t draw).1.map
              (fun row => row.map (fun x => x / (batch_size : ℚ))))
            (matScale (2 / (prior_var * ((t : ℚ) + 1))) (matSub W.1 W1p)))),
           vsub W.2 (vscale lr (vadd
            ((TwoLayerNNEnsembleSampling.member_minibatch_grad leaky noise_var batch_size
                action_hist reward_hist W.1 W.2 t draw).2.map
              (fun x => x / (batch_size : ℚ)))
            (vscale (2 / (prior_var * ((t : ℚ) + 1))) (vsub W.2 W2p)))))) :=
  ⟨fun _ _ _ => rfl, fun _ _ _ _ _ _ _ _ _ _ _ _ => rfl⟩

/-- C4: every index placed in a minibatch (shared sampling code of both
`_update_model` implementations) lies in `{0, ..., t}`. -/
theorem C4_minibatch_indices_in_range (batch_size t : ℕ) (draw : ℕ → ℕ) (i : ℕ)
    (hi : i ∈ batch_ind batch_size t draw) : i ≤ t := by
  simp only [batch_ind, List.mem_map, List.mem_range] at hi
  rcases hi with ⟨b, _, rfl⟩
  have h := Nat.mod_lt (draw b) (show 0 < t + 1 by omega)
  omega

/-- Witness for C4 at a concrete input. -/
theorem C4_witness : 0 ∈ batch_ind 1 0 (fun _ => 5) ∧ 0 ≤ 0 :=
  ⟨by decide, C4_minibatch_indices_in_range 1 0 (fun _ => 5) 0 (by decide)⟩

/-- C6: the ensemble prior arrays are left unchanged by `pick_action` and by
`update_observation`; only construction writes them. -/
theorem C6_priors_never_rewritten (s : TwoLayerNNEnsembleSampling.State)
    (observation action mdraw : ℕ) (reward sqrt_noise : ℚ) (zs : ℕ → ℚ)
    (draws : ℕ → ℕ → ℕ → ℕ) :
    (TwoLayerNNEnsembleSampling.pick_action s mdraw).2.W1_model_prior = s.W1_model_prior ∧
    (TwoLayerNNEnsembleSampling.pick_action s mdraw).2.W2_model_prior = s.W2_model_prior ∧
    (TwoLayerNNEnsembleSampling.update_observation s observation action reward sqrt_noise
        zs draws).W1_model_prior = s.W1_model_prior ∧
    (TwoLayerNNEnsembleSampling.update_observation s observation action reward sqrt_noise
        zs draws).W2_model_prior = s.W2_model_prior := by
  refine ⟨rfl, rfl, ?_, ?_⟩
  · exact foldl_pres
      (fun st m2 => TwoLayerNNEnsembleSampling.member_step st observation m2 reward sqrt_noise
        (zs m2) (draws m2))
      (fun st => st.W1_model_prior) (List.range s.M) (fun st i _ => rfl) _
  · exact foldl_pres
      (fun st m2 => TwoLayerNNEnsembleSampling.member_step st observation m2 reward sqrt_noise
        (zs m2) (draws m2))
      (fun st => st.W2_model_prior) (List.range s.M) (fun st i _ => rfl) _

/-- C7: the learning rate is multiplied by `lr_decay` exactly once per
`update_observation` call, after all inner gradient steps and (for the
ensemble) after all member updates; the inner update loops never change it. -/
theorem C7_lr_decayed_once_per_update (se : TwoLayerNNEpsilonGreedy.State) (t a : ℕ)
    (r : ℚ) (ds : ℕ → ℕ → ℕ) (sens : TwoLayerNNEnsembleSampling.State) (t2 a2 m : ℕ)
    (r2 sn : ℚ) (zs : ℕ → ℚ) (ds2 : ℕ → ℕ → ℕ → ℕ) (ds3 : ℕ → ℕ → ℕ) :
    (TwoLayerNNEpsilonGreedy.update_model se t ds).lr = se.lr ∧
    (TwoLayerNNEpsilonGreedy.update_observation se t a r ds).lr = se.lr * se.lr_decay ∧
    (TwoLayerNNEnsembleSampling.update_model sens m t2 ds3).lr = sens.lr ∧
    (TwoLayerNNEnsembleSampling.update_observation sens t2 a2 r2 sn zs ds2).lr
      = sens.lr * sens.lr_decay := by
  refine ⟨(eg_update_model_frame se t ds).1, ?_, rfl, ?_⟩
  · show (TwoLayerNNEpsilonGreedy.update_model _ t ds).lr *
      (TwoLayerNNEpsilonGreedy.update_model _ t ds).lr_decay = se.lr * se.lr_decay
    rw [(eg_update_model_frame _ t ds).1, (eg_update_model_frame _ t ds).2.1]
  · show ((List.range sens.M).foldl
        (fun st m2 => TwoLayerNNEnsembleSampling.member_step st t2 m2 r2 sn (zs m2) (ds2 m2))
        { sens with action_hist := sens.action_hist.set t2 (sens.actions.getD a2 []) }).lr *
      ((List.range sens.M).foldl
        (fun st m2 => TwoLayerNNEnsembleSampling.member_step st t2 m2 r2 sn (zs m2) (ds2 m2))
        { sens with action_hist := sens.action_hist.set t2 (sens.actions.getD a2 []) }).lr_decay
      = sens.lr * sens.lr_decay
    rw [foldl_pres
        (fun st m2 => TwoLayerNNEnsembleSampling.member_step st t2 m2 r2 sn (zs m2) (ds2 m2))
        (fun st => st.lr) (List.range sens.M) (fun st i _ => rfl),
      foldl_pres
        (fun st m2 => TwoLayerNNEnsembleSampling.member_step st t2 m2 r2 sn (zs m2) (ds2 m2))
        (fun st => st.lr_decay) (List.range sens.M) (fun st i _ => rfl)]

/-- C8: with `epsilon_param = 0` the fixed epsilon-greedy policy always takes
the exploit branch and returns the arg-max of the deterministic forward pass,
for every value `u` that `rd.rand()` can return (any `u ≥ 0`). -/
theorem C8_epsilon_zero_always_greedy (s : TwoLayerNNEpsilonGreedy.State) (u : ℚ)
    (rdraw : ℕ) (heps : s.epsilon_param = 0) (hu : 0 ≤ u) :
    TwoLayerNNEpsilonGreedy.pick_action s u rdraw
      = (npArgmax (model_forward s.leaky_coeff s.W1 s.W2 s.actions).1, s) := by
  have h : ¬ u < s.epsilon_param := by rw [heps]; exact not_lt.mpr hu
  unfold TwoLayerNNEpsilonGreedy.pick_action
  rw [if_neg h]

/-- Witness for C8 at a concrete input. -/
theorem C8_witness :
    (egEx.epsilon_param = 0 ∧ (0 : ℚ) ≤ 0) ∧
    TwoLayerNNEpsilonGreedy.pick_action egEx 0 3
      = (npArgmax (model_forward egEx.leaky_coeff egEx.W1 egEx.W2 egEx.actions).1, egEx) :=
  ⟨⟨rfl, le_refl 0⟩, C8_epsilon_zero_always_greedy egEx 0 3 rfl (le_refl 0)⟩

/-- C9: no `pick_action` variant mutates the agent state; each returns the
state it was given, consuming only external random draws. -/
theorem C9_pick_action_mutates_nothing (se : TwoLayerNNEpsilonGreedy.State) (u u2 : ℚ)
    (rdraw rdraw2 t : ℕ) (sd : TwoLayerNNDropout.State) (mask_draw : ℕ → ℕ → ℚ)
    (sens : TwoLayerNNEnsembleSampling.State) (mdraw : ℕ) :
    (TwoLayerNNEpsilonGreedy.pick_action se u rdraw).2 = se ∧
    (TwoLayerNNEpsilonGreedyAnnealing.pick_action se t u2 rdraw2).2 = se ∧
    (TwoLayerNNDropout.pick_action sd mask_draw).2 = sd ∧
    (TwoLayerNNEnsembleSampling.pick_action sens mdraw).2 = sens := by
  refine ⟨?_, ?_, rfl, rfl⟩
  · unfold TwoLayerNNEpsilonGreedy.pick_action
    split <;> rfl
  · show (if u2 < se.epsilon_param / (se.epsilon_param + (t : ℚ))
        then (rdraw2 % se.num_actions, se)
        else (npArgmax (model_forward se.leaky_coeff se.W1 se.W2 se.actions).1, se)).2 = se
    split <;> rfl

/-- C5: each `update_observation` of the ensemble stores
`reward + sqrt(noise_var) * z_m` (an independently drawn perturbation per
member) into `model_reward_hist[m][t]`, and the new weights of member `m` are
exactly the regularized SGD update of member `m` alone — computed from member
`m` weights, member `m` priors, and member `m` perturbed reward history only. -/
theorem C5_member_rewards_perturbed_and_trained_alone
    (s : TwoLayerNNEnsembleSampling.State) (t a m : ℕ) (r sn : ℚ) (zs : ℕ → ℚ)
    (ds : ℕ → ℕ → ℕ → ℕ) (hm : m < s.M)
    (h1 : s.W1.length = s.M) (h2 : s.W2.length = s.M)
    (h3 : s.model_reward_hist.length = s.M) :
    (TwoLayerNNEnsembleSampling.update_observation s t a r sn zs ds).model_reward_hist.getD m []
      = (s.model_reward_hist.getD m []).set t (r + sn * zs m) ∧
    (TwoLayerNNEnsembleSampling.update_observation s t a r sn zs ds).W1.getD m []
      = (TwoLayerNNEnsembleSampling.member_sgd s.leaky_coeff s.noise_var s.prior_var s.lr
          s.batch_size s.num_gradient_steps
          (s.action_hist.set t (s.actions.getD a []))
          ((s.model_reward_hist.getD m []).set t (r + sn * zs m))
          (s.W1_model_prior.getD m []) (s.W2_model_prior.getD m []) t
          (s.W1.getD m []) (s.W2.getD m []) (ds m)).1 ∧
    (TwoLayerNNEnsembleSampling.update_observation s t a r sn zs ds).W2.getD m []
      = (TwoLayerNNEnsembleSampling.member_sgd s.leaky_coeff s.noise_var s.prior_var s.lr
          s.batch_size s.num_gradient_steps
          (s.action_hist.set t (s.actions.getD a []))
          ((s.model_reward_hist.getD m []).set t (r + sn * zs m))
          (s.W1_model_prior.getD m []) (s.W2_model_prior.getD m []) t
          (s.W1.getD m []) (s.W2.getD m []) (ds m)).2 := by
  have key := ens_fold_member t r sn zs ds m s.M
    { s with action_hist := s.action_hist.set t (s.actions.getD a []) }
    hm (h1 ▸ hm) (h2 ▸ hm) (h3 ▸ hm)
  exact ⟨key.2.2, key.1, key.2.1⟩

/-- Witness for C5 at a concrete one-member ensemble. -/
theorem C5_witness :
    (0 < ensEx.M ∧ ensEx.W1.length = ensEx.M ∧ ensEx.W2.length = ensEx.M ∧
      ensEx.model_reward_hist.length = ensEx.M) ∧
    ((TwoLayerNNEnsembleSampling.update_observation ensEx 0 0 5 1 (fun _ => 2)
        (fun _ _ _ => 0)).model_reward_hist.getD 0 []
      = (ensEx.model_reward_hist.getD 0 []).set 0 (5 + 1 * 2) ∧
     (TwoLayerNNEnsembleSampling.update_observation ensEx 0 0 5 1 (fun _ => 2)
        (fun _ _ _ => 0)).W1.getD 0 []
      = (TwoLayerNNEnsembleSampling.member_sgd ensEx.leaky_coeff ensEx.noise_var
          ensEx.prior_var ensEx.lr ensEx.batch_size ensEx.num_gradient_steps
          (ensEx.action_hist.set 0 (ensEx.actions.getD 0 []))
          ((ensEx.model_reward_hist.getD 0 []).set 0 (5 + 1 * 2))
          (ensEx.W1_model_prior.getD 0 []) (ensEx.W2_model_prior.getD 0 []) 0
          (ensEx.W1.getD 0 []) (ensEx.W2.getD 0 []) (fun _ _ => 0)).1 ∧
     (TwoLayerNNEnsembleSampling.update_observation ensEx 0 0 5 1 (fun _ => 2)
        (fun _ _ _ => 0)).W2.getD 0 []
      = (TwoLayerNNEnsembleSampling.member_sgd ensEx.leaky_coeff ensEx.noise_var
          ensEx.prior_var ensEx.lr ensEx.batch_size ensEx.num_gradient_steps
          (ensEx.action_hist.set 0 (ensEx.actions.getD 0 []))
          ((ensEx.model_reward_hist.getD 0 []).set 0 (5 + 1 * 2))
          (ensEx.W1_model_prior.getD 0 []) (ensEx.W2_model_prior.getD 0 []) 0
          (ensEx.W1.getD 0 []) (ensEx.W2.getD 0 []) (fun _ _ => 0)).2) :=
  ⟨⟨by decide, by decide, by decide, by decide⟩,
   C5_member_rewards_perturbed_and_trained_alone ensEx 0 0 0 5 1 (fun _ => 2)
     (fun _ _ _ => 0) (by decide) (by decide) (by decide) (by decide)⟩

/-- C10: for a non-empty action set, every `pick_action` variant returns an
index below the number of actions, in both the explore and exploit branches. -/
theorem C10_pick_action_index_in_bounds
    (se : TwoLayerNNEpsilonGreedy.State) (u u2 : ℚ) (rdraw rdraw2 t : ℕ)
    (sd : TwoLayerNNDropout.State) (mask_draw : ℕ → ℕ → ℚ)
    (sens : TwoLayerNNEnsembleSampling.State) (mdraw : ℕ)
    (hse : se.actions ≠ []) (hsen : se.num_actions = se.actions.length)
    (hsd : sd.actions ≠ []) (hens : sens.actions ≠ []) :
    (TwoLayerNNEpsilonGreedy.pick_action se u rdraw).1 < se.actions.length ∧
    (TwoLayerNNEpsilonGreedyAnnealing.pick_action se t u2 rdraw2).1 < se.actions.length ∧
    (TwoLayerNNDropout.pick_action sd mask_draw).1 < sd.actions.length ∧
    (TwoLayerNNEnsembleSampling.pick_action sens mdraw).1 < sens.actions.length := by
  have hposE : 0 < se.actions.length := List.length_pos.mpr hse
  have hexitE : npArgmax (model_forward se.leaky_coeff se.W1 se.W2 se.actions).1
      < se.actions.length := by
    have hlen := model_forward_out_length se.leaky_coeff se.W1 se.W2 se.actions
    have hne := List.length_pos.mp (show 0 < (model_forward se.leaky_coeff se.W1 se.W2
      se.actions).1.length by rw [hlen]; exact hposE)
    have hlt := npArgmax_lt _ hne
    rw [hlen] at hlt
    exact hlt
  refine ⟨?_, ?_, ?_, ?_⟩
  · unfold TwoLayerNNEpsilonGreedy.pick_action
    split
    · show rdraw % se.num_actions < se.actions.length
      rw [hsen]
      exact Nat.mod_lt _ hposE
    · exact hexitE
  · show (if u2 < se.epsilon_param / (se.epsilon_param + (t : ℚ))
        then (rdraw2 % se.num_actions, se)
        else (npArgmax (model_forward se.leaky_coeff se.W1 se.W2 se.actions).1, se)).1
      < se.actions.length
    split
    · show rdraw2 % se.num_actions < se.actions.length
      rw [hsen]
      exact Nat.mod_lt _ hposE
    · exact hexitE
  · show npArgmax (TwoLayerNNDropout.model_forward sd.p sd.leaky_coeff mask_draw
        sd.W1 sd.W2 sd.actions).1 < sd.actions.length
    have hlen := dropout_forward_out_length sd.p sd.leaky_coeff mask_draw sd.W1 sd.W2 sd.actions
    have hne := List.length_pos.mp (show 0 < (TwoLayerNNDropout.model_forward sd.p
      sd.leaky_coeff mask_draw sd.W1 sd.W2 sd.actions).1.length by
        rw [hlen]; exact List.length_pos.mpr hsd)
    have hlt := npArgmax_lt _ hne
    rw [hlen] at hlt
    exact hlt
  · show npArgmax (model_forward sens.leaky_coeff (sens.W1.getD (mdraw % sens.M) [])
        (sens.W2.getD (mdraw % sens.M) []) sens.actions).1 < sens.actions.length
    have hlen := model_forward_out_length sens.leaky_coeff (sens.W1.getD (mdraw % sens.M) [])
      (sens.W2.getD (mdraw % sens.M) []) sens.actions
    have hne := List.length_pos.mp (show 0 < (model_forward sens.leaky_coeff
      (sens.W1.getD (mdraw % sens.M) []) (sens.W2.getD (mdraw % sens.M) [])
      sens.actions).1.length by rw [hlen]; exact List.length_pos.mpr hens)
    have hlt := npArgmax_lt _ hne
    rw [hlen] at hlt
    exact hlt

/-- Witness for C10 at the concrete example states. -/
theorem C10_witness :
    (egEx.actions ≠ [] ∧ egEx.num_actions = egEx.actions.length ∧
      dropEx.actions ≠ [] ∧ ensEx.actions ≠ []) ∧
    ((TwoLayerNNEpsilonGreedy.pick_action egEx 1 0).1 < egEx.actions.length ∧
     (TwoLayerNNEpsilonGreedyAnnealing.pick_action egEx 0 1 0).1 < egEx.actions.length ∧
     (TwoLayerNNDropout.pick_action dropEx (fun _ _ => 0)).1 < dropEx.actions.length ∧
     (TwoLayerNNEnsembleSampling.pick_action ensEx 0).1 < ensEx.actions.length) :=
  ⟨⟨by decide, by decide, by decide, by decide⟩,
   C10_pick_action_index_in_bounds egEx 1 1 0 0 0 dropEx (fun _ _ => 0) ensEx 0
     (by decide) (by decide) (by decide) (by decide)⟩

/-- C3 counterexample: at `t = 0` with `batch_size = 2 > t + 1`, the update
does not raise any error — it runs the gradient computation to completion and
changes the weights. -/
theorem C3_counterexample :
    0 + 1 < egEx.batch_size ∧
    (TwoLayerNNEpsilonGreedy.update_observation egEx 0 0 1 (fun _ _ => 0)).W2 ≠ egEx.W2 := by
  refine ⟨by decide, ?_⟩
  have h : (TwoLayerNNEpsilonGreedy.update_observation egEx 0 0 1 (fun _ _ => 0)).W2
      = [-1] := by
    norm_num [TwoLayerNNEpsilonGreedy.update_observation,
      TwoLayerNNEpsilonGreedy.update_model, TwoLayerNNEpsilonGreedy.grad_step,
      TwoLayerNNEpsilonGreedy.minibatch_grad, batch_ind, model_forward, model_backward,
      dot, vscale, vadd, vsub, vsum0, egEx, List.foldl_cons, List.foldl_nil,
      show List.range 1 = [0] from rfl, show List.range 2 = [0, 1] from rfl,
      show List.replicate 2 [(0 : ℚ)] = [[0], [0]] from rfl]
  rw [h]
  intro hc
  rw [show egEx.W2 = [1] from rfl] at hc
  norm_num at hc

/-- C3 amended: when `batch_size` exceeds the number of observations seen so
far (`t + 1`), `update_observation` proceeds normally instead of failing: the
reward is recorded, every sampled minibatch index still lies in
`{0, ..., t}` (sampling is with replacement), and some index necessarily
repeats inside the minibatch. -/
theorem C3_amended_update_proceeds (s : TwoLayerNNEpsilonGreedy.State) (t a gs : ℕ)
    (r : ℚ) (draws : ℕ → ℕ → ℕ) (h : t + 1 < s.batch_size) :
    (TwoLayerNNEpsilonGreedy.update_observation s t a r draws).reward_hist
      = s.reward_hist.set t r ∧
    (∀ i ∈ batch_ind s.batch_size t (draws gs), i < t + 1) ∧
    ¬ (batch_ind s.batch_size t (draws gs)).Nodup := by
  refine ⟨?_, ?_, ?_⟩
  · show (TwoLayerNNEpsilonGreedy.update_model _ t draws).reward_hist = s.reward_hist.set t r
    rw [(eg_update_model_frame _ t draws).2.2.2]
  · intro i hi
    simp only [batch_ind, List.mem_map, List.mem_range] at hi
    rcases hi with ⟨b, _, rfl⟩
    exact Nat.mod_lt _ (show 0 < t + 1 by omega)
  · intro hnd
    have hlen : (batch_ind s.batch_size t (draws gs)).length = s.batch_size := by
      simp [batch_ind]
    have hsub : (batch_ind s.batch_size t (draws gs)).toFinset ⊆ Finset.range (t + 1) := by
      intro x hx
      rw [List.mem_toFinset] at hx
      simp only [batch_ind, List.mem_map, List.mem_range] at hx
      rcases hx with ⟨b, _, rfl⟩
      rw [Finset.mem_range]
      exact Nat.mod_lt _ (show 0 < t + 1 by omega)
    have hcard := Finset.card_le_card hsub
    rw [List.toFinset_card_of_nodup hnd, hlen, Finset.card_range] at hcard
    omega

/-- Witness for the amended C3 at the concrete counterexample input. -/
theorem C3_amended_witness :
    0 + 1 < egEx.batch_size ∧
    ((TwoLayerNNEpsilonGreedy.update_observation egEx 0 0 1 (fun _ _ => 0)).reward_hist
        = egEx.reward_hist.set 0 1 ∧
     (∀ i ∈ batch_ind egEx.batch_size 0 (fun _ => 0), i < 0 + 1) ∧
     ¬ (batch_ind egEx.batch_size 0 (fun _ => 0)).Nodup) :=
  ⟨by decide, C3_amended_update_proceeds egEx 0 0 0 1 (fun _ _ => 0) (by decide)⟩

/-- C1: the dropout backward pass computes `dW2` from `relu_out`, ignoring the
sampled dropout mask, so its `dW2` is not the gradient of the squared-error
loss of the dropout-masked forward pass with the mask held fixed.  At the
concrete input below the mask zeroes the only hidden unit, so the loss does
not depend on `W2` at all — its derivative in the single `W2` coordinate is
`0` — yet the backward pass returns `dW2 = [-2]`. -/
theorem C1_dropout_dW2_not_loss_gradient :
    ((TwoLayerNNDropout.model_forward (1 : ℚ) 1 (fun _ _ => 0) [[1]] [1/2]
        [[1]]).2.dropout_mask = [[0]] ∧
     (TwoLayerNNDropout.model_forward (1 : ℚ) 1 (fun _ _ => 0) [[1]] [1/2]
        [[1]]).1 = [0] ∧
     (TwoLayerNNDropout.model_backward (1 : ℚ) 1 [1/2] 1 1
        (TwoLayerNNDropout.model_forward (1 : ℚ) 1 (fun _ _ => 0) [[1]] [1/2] [[1]]).1
        (TwoLayerNNDropout.model_forward (1 : ℚ) 1 (fun _ _ => 0) [[1]] [1/2] [[1]]).2
        [1]).2 = [-2]) ∧
    HasDerivAt (fun w : ℝ => sq_loss 1 [1]
      (TwoLayerNNDropout.model_forward (1 : ℝ) 1 (fun _ _ => 0) [[1]] [w]
        [[1]]).1) 0 (1/2) ∧
    (-2 : ℚ) ≠ 0 := by
  refine ⟨?_, ?_, by norm_num⟩
  · refine ⟨?_, ?_, ?_⟩ <;>
      norm_num [TwoLayerNNDropout.model_forward, TwoLayerNNDropout.model_backward,
        TwoLayerNNDropout.dropout_mask_of, hadamard, dot, vscale, vsum0, vadd,
        List.enum, List.enumFrom]
  · have hfun : (fun w : ℝ => sq_loss 1 [1]
        (TwoLayerNNDropout.model_forward (1 : ℝ) 1 (fun _ _ => 0) [[1]] [w]
          [[1]]).1) = fun _ => 1 := by
      funext w
      norm_num [TwoLayerNNDropout.model_forward, TwoLayerNNDropout.dropout_mask_of,
        hadamard, dot, sq_loss, List.enum, List.enumFrom]
    rw [hfun]
    exact hasDerivAt_const _ _
